import Mathlib

/-!
Shallow embedding of the temporal price-change analytics pipeline of
`scripts/generate_and_tweet.py` and of the publisher guard of
`scripts/x_publisher.py`.

Conventions of the embedding:
* Python floats are modelled as rationals (`ℚ`); float formatting is
  modelled as exact fixed-point rendering of the rational with
  round-half-up ties (the claims settled here do not depend on the tie
  rule of IEEE formatting).
* `datetime.date` values are modelled as day numbers (`Int`) via the
  standard civil-calendar day count, so date comparison and
  `timedelta(days = n)` arithmetic are integer comparison and addition.
* A GitHub release is modelled by its tag and by the result of
  `extract_csv_from_release` on it: `csvTable = some rows` when a matching
  CSV is found inside its zip assets (with the parsed rows), `none` when
  the function would raise `RuntimeError`.  Claims about the catalog
  quantify over lists of already-dated entries, matching the
  `dated = [(date, release), ...]` list built by
  `select_releases_by_date`.
* `pandas` tables are lists of row structures in source order;
  `sort` / `sort_values` are modelled by the stable `List.insertionSort`
  (Python list sort is stable; `sort_values` tie placement for the small
  lists used in counterexamples coincides with stable order).
* Raised exceptions are modelled with `Except String`, carrying the
  message of the corresponding `RuntimeError` / `ValueError`.
-/

/-! ## Dates -/

abbrev Date := Int

/-- Day number of a civil calendar date (days since 1970-01-01),
the standard days-from-civil computation; it embeds `datetime.date`
order-isomorphically and makes `timedelta` arithmetic integer addition. -/
def daysFromCivil (y m d : Int) : Int :=
  let y' := if m ≤ 2 then y - 1 else y
  let era := (if 0 ≤ y' then y' else y' - 399) / 400
  let yoe := y' - era * 400
  let mp := (m + 9) % 12
  let doy := (153 * mp + 2) / 5 + d - 1
  let doe := yoe * 365 + yoe / 4 - yoe / 100 + doy
  era * 146097 + doe - 719468

/-- `BASELINE_DATE = datetime(2026, 1, 4).date()` from the CONFIG block. -/
def baselineDate : Date := daysFromCivil 2026 1 4

/-- `BASELINE_LABEL` from the CONFIG block. -/
def baselineLabel : String := "enero de 2026"

/-- `TOP_N` from the CONFIG block. -/
def topN : Nat := 3

/-- `DAYS_WEEK` from the CONFIG block. -/
def daysWeek : Int := 7

/-! ## Catalog entries and archive extraction -/

/-- One raw CSV row of a snapshot table: the three columns the pipeline
selects (`df[["product_id", "product_name", "price"]]`), all still in
textual form as read from the semicolon-separated file. -/
structure RawRow where
  product_id : String
  product_name : String
  price : String
deriving DecidableEq, Repr

/-- A release of the snapshot archive, abstracted to what the pipeline
reads from it: its tag and the outcome of `extract_csv_from_release`
(`some rows` when a CSV matching `data/madrid/mercadona_madrid_` exists in
a zip asset, `none` when the extraction raises `RuntimeError`). -/
structure Release where
  tag_name : String
  csvTable : Option (List RawRow)
deriving DecidableEq, Repr

/-- `extract_csv_from_release`: returns the matching table or raises
`RuntimeError("No se encontró CSV válido en el release")`. -/
def extractCsv (r : Release) : Except String (List RawRow) :=
  match r.csvTable with
  | some t => Except.ok t
  | none => Except.error "No se encontró CSV válido en el release"

/-! ## Loader (`load_csv_clean`) -/

/-- A cleaned row: `product_id` trimmed, `price` coerced to a number. -/
structure Record where
  product_id : String
  product_name : String
  price : ℚ
deriving DecidableEq, Repr

/-- Python `str.strip()`: drop leading and trailing whitespace (defined
character-wise so that it evaluates inside the kernel). -/
def stripStr (s : String) : String :=
  String.mk (((s.toList.dropWhile Char.isWhitespace).reverse.dropWhile
    Char.isWhitespace).reverse)

/-- `str.replace(",", ".", regex=False)`: the locale normalization of the
price column replaces every comma by a dot; for this single-character
pattern it is a character map. -/
def commaToDot (s : String) : String :=
  String.mk (s.toList.map fun c => if c = ',' then '.' else c)

/-- Digits of a numeral string, `none` unless all characters are digits. -/
def parseDigits : List Char → Option ℕ
  | [] => some 0
  | c :: cs =>
    if c.isDigit then
      (parseDigits cs).map fun n => (c.toNat - '0'.toNat) * 10 ^ cs.length + n
    else
      none

/-- `pd.to_numeric(-, errors="coerce")` on a trimmed string, for the plain
decimal numerals that price columns contain: an optional sign, an integer
part and an optional fractional part, with at least one digit; anything
else coerces to `NaN`, modelled as `none`. -/
def toNumeric (s : String) : Option ℚ :=
  let chars := s.toList
  let (sign, body) :=
    match chars with
    | '-' :: rest => ((-1 : ℚ), rest)
    | '+' :: rest => ((1 : ℚ), rest)
    | rest => ((1 : ℚ), rest)
  match body.splitOn '.' with
  | [ip] =>
    if ip.isEmpty then none else (parseDigits ip).map fun n => sign * n
  | [ip, fp] =>
    if ip.isEmpty && fp.isEmpty then none else
    match parseDigits ip, parseDigits fp with
    | some n, some f => some (sign * (n + (f : ℚ) / 10 ^ fp.length))
    | _, _ => none
  | _ => none

/-- `load_csv_clean` after reading: select the three columns, trim
`product_id`, replace `","` by `"."` in `price` and trim it, coerce to a
number, and keep exactly the rows whose price parsed and is `> 0`.
No row is dropped because of its `product_id`. -/
def loadCsvClean (rows : List RawRow) : List Record :=
  rows.filterMap fun r =>
    match toNumeric (stripStr (commaToDot r.price)) with
    | none => none
    | some p =>
      if 0 < p then
        some { product_id := stripStr r.product_id
               product_name := r.product_name
               price := p }
      else
        none

/-! ## Aggregator (`aggregate_by_product`) -/

/-- Arithmetic mean of a list of rationals (pandas `mean` of a column). -/
def meanQ (l : List ℚ) : ℚ := l.sum / (l.length : ℚ)

/-- One aggregated row per distinct `product_id`. -/
structure AggRow where
  product_id : String
  product_name : String
  price : ℚ
deriving DecidableEq, Repr

/-- The lexicographic (code-point) order on strings used when pandas
sorts group keys; stated on the underlying character lists so that it
evaluates inside the kernel. -/
def keyLe (a b : String) : Prop := a.data ≤ b.data

instance : DecidableRel keyLe := fun a b =>
  inferInstanceAs (Decidable (a.data ≤ b.data))

instance : IsTotal String keyLe := ⟨fun a b => le_total a.data b.data⟩

instance : IsTrans String keyLe := ⟨fun _ _ _ h h' => le_trans h h'⟩

/-- `aggregate_by_product`: `groupby("product_id")` (pandas sorts group
keys) with `first` on the name and `mean` on the price. -/
def aggregate (rows : List Record) : List AggRow :=
  (List.insertionSort keyLe (rows.map (·.product_id)).dedup).map fun k =>
    { product_id := k
      product_name :=
        ((rows.find? fun r => r.product_id = k).map (·.product_name)).getD ""
      price := meanQ ((rows.filter fun r => r.product_id = k).map (·.price)) }

/-! ## Diff engine (`df_today.merge(df_base, on="product_id", how="inner")`) -/

/-- One row of `df_hist`: the inner join of the aggregated latest and
baseline tables on `product_id`. -/
structure MergedRow where
  product_id : String
  product_name_today : String
  price_today : ℚ
  product_name_base : String
  price_base : ℚ
deriving DecidableEq, Repr

/-- The inner merge: pandas keeps the left (today) key order and, both key
columns being unique after aggregation, pairs each left row with its
unique match on the right, dropping unmatched rows. -/
def mergeInner (dfToday dfBase : List AggRow) : List MergedRow :=
  dfToday.filterMap fun t =>
    (dfBase.find? fun b => b.product_id = t.product_id).map fun b =>
      { product_id := t.product_id
        product_name_today := t.product_name
        price_today := t.price
        product_name_base := b.product_name
        price_base := b.price }

/-- `df_hist` as built in `main` from the two extracted tables. -/
def dfHist (baseRows todayRows : List RawRow) : List MergedRow :=
  mergeInner (aggregate (loadCsvClean todayRows))
    (aggregate (loadCsvClean baseRows))

/-! ## Aggregate change and its clamp -/

/-- `((mean_today - mean_base) / mean_base) * 100` over `df_hist`. -/
def avgChangeRaw (baseRows todayRows : List RawRow) : ℚ :=
  let h := dfHist baseRows todayRows
  (meanQ (h.map (·.price_today)) - meanQ (h.map (·.price_base)))
    / meanQ (h.map (·.price_base)) * 100

/-- The clamp `if abs(avg_change) < 0.00005: avg_change = 0.0`. -/
def clampAvg (x : ℚ) : ℚ := if |x| < 5 / 100000 then 0 else x

/-- The aggregate change as rendered: raw value, then clamp. -/
def avgChange (baseRows todayRows : List RawRow) : ℚ :=
  clampAvg (avgChangeRaw baseRows todayRows)

/-! ## Ranking -/

/-- The `pct_change` column of `df_hist`. -/
def pctOf (m : MergedRow) : ℚ := (m.price_today - m.price_base) / m.price_base * 100

/-- `df_changes = df_hist[df_hist["pct_change"] != 0]`. -/
def dfChanges (h : List MergedRow) : List MergedRow :=
  h.filter fun m => decide (pctOf m ≠ 0)

/-- The comparison used by `sort_values("pct_change", ascending=False)`:
rows ordered by decreasing percentage change, nothing else compared. -/
def pctGe (a b : MergedRow) : Prop := pctOf b ≤ pctOf a

/-- The comparison used by `sort_values("pct_change")`: rows ordered by
increasing percentage change, nothing else compared. -/
def pctLe (a b : MergedRow) : Prop := pctOf a ≤ pctOf b

instance : DecidableRel pctGe := fun a b =>
  inferInstanceAs (Decidable (pctOf b ≤ pctOf a))

instance : DecidableRel pctLe := fun a b =>
  inferInstanceAs (Decidable (pctOf a ≤ pctOf b))

instance : IsTotal MergedRow pctGe := ⟨fun a b => le_total (pctOf b) (pctOf a)⟩

instance : IsTrans MergedRow pctGe :=
  ⟨fun _ _ _ h h' => le_trans h' h⟩

instance : IsTotal MergedRow pctLe := ⟨fun a b => le_total (pctOf a) (pctOf b)⟩

instance : IsTrans MergedRow pctLe :=
  ⟨fun _ _ _ h h' => le_trans h h'⟩

/-- `top_up = df_changes.sort_values("pct_change", ascending=False).head(TOP_N)`. -/
def topUp (h : List MergedRow) : List MergedRow :=
  (List.insertionSort pctGe (dfChanges h)).take topN

/-- `top_down = df_changes.sort_values("pct_change").head(TOP_N)`. -/
def topDown (h : List MergedRow) : List MergedRow :=
  (List.insertionSort pctLe (dfChanges h)).take topN

/-! ## Number formatting (Python f-string fixed-point formats) -/

/-- Left-pad a numeral with zeros to `d` characters. -/
def padZeros (d : Nat) (s : String) : String :=
  String.mk (List.replicate (d - s.length) '0') ++ s

/-- Render `|q|` with exactly `d` decimals (the magnitude part of a
`:.df` format), rounding to the nearest multiple of `10 ^ (-d)`. -/
def fmtAbs (d : Nat) (q : ℚ) : String :=
  let m := (round (|q| * (10 : ℚ) ^ d)).toNat
  toString (m / 10 ^ d) ++ "." ++ padZeros d (toString (m % 10 ^ d))

/-- The `:+.df` format: always an explicit sign. -/
def fmtSigned (d : Nat) (q : ℚ) : String :=
  (if q < 0 then "-" else "+") ++ fmtAbs d q

/-- The `:.df` format: a sign only when negative. -/
def fmtPlain (d : Nat) (q : ℚ) : String :=
  (if q < 0 then "-" else "") ++ fmtAbs d q

/-! ## Report text (the BUILD TXT block of `main`) -/

/-- One product bullet line, as in the two `for _, r in ….iterrows()`
loops. -/
def fmtRowLine (m : MergedRow) : String :=
  "• " ++ m.product_name_today ++ " (" ++ fmtSigned 1 (pctOf m) ++ "%): "
    ++ fmtPlain 2 m.price_base ++ "€ → " ++ fmtPlain 2 m.price_today ++ "€"

/-- The `lines` list built in `main`, in source order: header, blank,
baseline label line, aggregate line, blank, gainers block, blank, losers
block, blank, hashtags.  There is no weekly-summary section. -/
def buildLines (avg : ℚ) (up down : List MergedRow) : List String :=
  ["📊 Precios Mercadona · Madrid", "",
   "Desde " ++ baselineLabel ++ ":",
   "📈 Precio medio " ++ fmtSigned 4 avg ++ "%", "",
   "⬆️ Top subidas desde enero de 2026:"]
  ++ (if up.isEmpty then ["Sin cambios relevantes"] else up.map fmtRowLine)
  ++ ["", "⬇️ Top bajadas desde enero de 2026:"]
  ++ (if down.isEmpty then ["Sin cambios relevantes"] else down.map fmtRowLine)
  ++ ["", "#Mercadona #Precios #Inflación"]

/-- `"\n".join(lines)`. -/
def joinLines : List String → String
  | [] => ""
  | [a] => a
  | a :: b :: rest => a ++ "\n" ++ joinLines (b :: rest)

/-- The text composed by `main` from the three extracted tables.  The
`week_csv` argument mirrors the `week_csv` variable of `main`: it is in
scope there but never read when building the report. -/
def mainCompose (baseRows todayRows : List RawRow)
    (weekRows : Option (List RawRow)) : String :=
  joinLines (buildLines (avgChange baseRows todayRows)
    (topUp (dfHist baseRows todayRows)) (topDown (dfHist baseRows todayRows)))

/-! ## Catalog resolution (`select_releases_by_date` and `main`) -/

/-- Order of `dated.sort(key=lambda x: x[0])`: by extracted date. -/
def dateLe (a b : Date × Release) : Prop := a.1 ≤ b.1

instance : DecidableRel dateLe := fun a b =>
  inferInstanceAs (Decidable (a.1 ≤ b.1))

instance : IsTotal (Date × Release) dateLe := ⟨fun a b => Int.le_total a.1 b.1⟩

instance : IsTrans (Date × Release) dateLe :=
  ⟨fun _ _ _ h h' => le_trans h h'⟩

/-- The sort performed by `select_releases_by_date` (Python list sort is
stable, as is insertion sort, and a stable sort by the same key is unique,
so the two agree). -/
def sortDated (l : List (Date × Release)) : List (Date × Release) :=
  List.insertionSort dateLe l

/-- The `for d, r in reversed(dated_releases): if d <= week_date: …; break`
loop: first entry of the reversed sorted list at or before the target. -/
def findWeek : List (Date × Release) → Date → Option Release
  | [], _ => none
  | p :: rest, wd => if p.1 ≤ wd then some p.2 else findWeek rest wd

/-- The week-ago selection of `main` on a dated catalog. -/
def findWeekOf (dated : List (Date × Release)) (today : Date) : Option Release :=
  findWeek (sortDated dated).reverse (today - daysWeek)

/-- The baseline selection of `main`:
`next((r for d, r in dated_releases if d >= BASELINE_DATE), None)`. -/
def selectBaselineOf (dated : List (Date × Release)) : Option (Date × Release) :=
  (sortDated dated).find? fun q => decide (baselineDate ≤ q.1)

/-- `week_csv = extract_csv_from_release(week, tmpdir) if week else None`:
the conditional only guards resolution, an extraction error propagates. -/
def weekExtract : Option Release → Except String (Option (List RawRow))
  | some w =>
    match extractCsv w with
    | Except.ok t => Except.ok (some t)
    | Except.error e => Except.error e
  | none => Except.ok none

instance {ε α : Type} [DecidableEq ε] [DecidableEq α] : DecidableEq (Except ε α)
  | Except.ok x, Except.ok y =>
    if h : x = y then isTrue (by rw [h]) else isFalse (by simp [h])
  | Except.ok _, Except.error _ => isFalse (by simp)
  | Except.error _, Except.ok _ => isFalse (by simp)
  | Except.error e, Except.error f =>
    if h : e = f then isTrue (by rw [h]) else isFalse (by simp [h])

/-- The pipeline of `main` on a dated catalog: the emptiness check of
`select_releases_by_date`, baseline and latest and week-ago resolution,
the three extractions in source order, then the composed report text.
A raised `RuntimeError` is an `Except.error` with its message. -/
def runMain (dated : List (Date × Release)) (today : Date) : Except String String :=
  match sortDated dated with
  | [] => Except.error "No se pudo extraer fecha de ningún release"
  | p :: rest =>
    match selectBaselineOf dated with
    | none => Except.error "No se encontró baseline válido"
    | some bp =>
      let latest := (p :: rest).getLast (List.cons_ne_nil p rest)
      match extractCsv bp.2 with
      | Except.error e => Except.error e
      | Except.ok baseRows =>
        match extractCsv latest.2 with
        | Except.error e => Except.error e
        | Except.ok todayRows =>
          match weekExtract (findWeekOf dated today) with
          | Except.error e => Except.error e
          | Except.ok weekRows =>
            Except.ok (mainCompose baseRows todayRows weekRows)

/-! ## Publisher guard (`x_publisher.post_tweet`) -/

/-- The externally visible steps of `post_tweet` after its validation:
reading the cookie file, then driving the browser to post exactly the
given text. -/
inductive PubAction where
  | readCookies (file : String)
  | browserPost (text : String)
deriving DecidableEq, Repr

/-- `post_tweet`: rejects an empty or whitespace-only text, then a text of
more than 280 characters, with `ValueError`; only afterwards does it open
the cookie file and drive the browser, typing the text unmodified. -/
def postTweet (text : String) : Except String (List PubAction) :=
  if text = "" ∨ stripStr text = "" then Except.error "Tweet vacío"
  else if 280 < text.length then Except.error "Tweet supera 280 caracteres"
  else Except.ok [PubAction.readCookies "cookies.json", PubAction.browserPost text]

/-!
## Concrete data used by witnesses and counterexamples

The Batteries rational operations are `@[irreducible]`; evaluation inside
`decide` proofs needs them reducible again, and concrete runs of the
pipeline reduce deeply.
-/

attribute [local semireducible] Rat.add Rat.mul Rat.inv Rat.sub

set_option maxRecDepth 400000

/-- A raw CSV row from its three fields. -/
def rowP (id nm pr : String) : RawRow :=
  { product_id := id, product_name := nm, price := pr }

/-- Baseline table of a six-product catalog whose report is long. -/
def c1Base : List RawRow :=
  [rowP "p1" "Aceite de oliva virgen extra" "5.00",
   rowP "p2" "Leche entera Hacendado 1L" "1.00",
   rowP "p3" "Huevos frescos L docena" "2.00",
   rowP "p4" "Pan de molde integral" "1.00",
   rowP "p5" "Queso curado mezcla" "4.00",
   rowP "p6" "Arroz redondo categoria" "1.00"]

/-- Latest table of the six-product catalog: three risers, three fallers. -/
def c1Today : List RawRow :=
  [rowP "p1" "Aceite de oliva virgen extra" "6.00",
   rowP "p2" "Leche entera Hacendado 1L" "1.20",
   rowP "p3" "Huevos frescos L docena" "2.30",
   rowP "p4" "Pan de molde integral" "0.80",
   rowP "p5" "Queso curado mezcla" "3.50",
   rowP "p6" "Arroz redondo categoria" "0.90"]

/-- Release dated 2026-01-05 carrying `c1Base`. -/
def relBase : Release := { tag_name := "2026-01-05", csvTable := some c1Base }

/-- Release dated 2026-01-20 carrying `c1Today`. -/
def relToday : Release := { tag_name := "2026-01-20", csvTable := some c1Today }

/-- The six-product catalog. -/
def c1Cat : List (Date × Release) :=
  [(daysFromCivil 2026 1 5, relBase), (daysFromCivil 2026 1 20, relToday)]

/-- The run date used with `c1Cat`. -/
def c1TodayDate : Date := daysFromCivil 2026 1 20

/-- One-product baseline table. -/
def smallBase : List RawRow := [rowP "x" "Producto X" "1.00"]

/-- One-product latest table. -/
def smallToday : List RawRow := [rowP "x" "Producto X" "1.10"]

/-- Release dated 2026-01-15 carrying `smallBase`. -/
def relA : Release := { tag_name := "2026-01-15", csvTable := some smallBase }

/-- Release dated 2026-01-20 carrying `smallToday`. -/
def relB : Release := { tag_name := "2026-01-20", csvTable := some smallToday }

/-- Release dated 2026-01-10 carrying the same rows as `relA`. -/
def relW : Release := { tag_name := "2026-01-10", csvTable := some smallBase }

/-- Catalog in which a week-ago snapshot (2026-01-10 ≤ 2026-01-13) exists. -/
def catWithWeek : List (Date × Release) :=
  [(daysFromCivil 2026 1 10, relW), (daysFromCivil 2026 1 15, relA),
   (daysFromCivil 2026 1 20, relB)]

/-- Catalog in which no entry is dated at or before 2026-01-13. -/
def catNoWeek : List (Date × Release) :=
  [(daysFromCivil 2026 1 15, relA), (daysFromCivil 2026 1 20, relB)]

/-- The run date used with the small catalogs. -/
def smallTodayDate : Date := daysFromCivil 2026 1 20

/-! ## C3: the aggregate clamp threshold -/

/-- The clamp zeroes a value exactly when its magnitude is below the
threshold actually written in the code, `0.00005`. -/
theorem clampAvg_eq_zero_iff (x : ℚ) : clampAvg x = 0 ↔ |x| < 5 / 100000 := by
  unfold clampAvg
  split
  · exact iff_of_true rfl (by assumption)
  · rename_i hcond
    constructor
    · intro hx
      exact absurd (by rw [hx]; norm_num) hcond
    · intro hx
      exact absurd hx hcond

/-- Baseline table producing a raw aggregate change of `7e-5` percent. -/
def c3Base : List RawRow := [rowP "x" "Producto X" "1000000"]

/-- Latest table producing a raw aggregate change of `7e-5` percent. -/
def c3Today : List RawRow := [rowP "x" "Producto X" "1000000.7"]

/-- C3 counterexample: a pair of snapshots whose raw aggregate change has
magnitude `7e-5`, strictly below the `1e-4` threshold the claim states,
yet the rendered `AggregateChange` is not clamped to zero (the code
clamps below `5e-5` only). -/
theorem c3_counterexample :
    avgChangeRaw c3Base c3Today = 7 / 100000 ∧
    |avgChangeRaw c3Base c3Today| < 1 / 10000 ∧
    avgChange c3Base c3Today ≠ 0 := by decide

/-- C3 (amended): for every pair of compared snapshot tables, the
`AggregateChange` is clamped to exactly `0.0` if and only if its raw
absolute magnitude is below `5e-5` (the code constant `0.00005`), not
`1e-4`; any raw magnitude at or above `5e-5` is rendered unclamped. -/
theorem aggregateClamp (baseRows todayRows : List RawRow) :
    avgChange baseRows todayRows = 0 ↔
      |avgChangeRaw baseRows todayRows| < 5 / 100000 :=
  clampAvg_eq_zero_iff (avgChangeRaw baseRows todayRows)

/-- C3 witness: the clamp theorem applied to a concrete pair of equal
snapshots, whose raw change is `0`. -/
theorem aggregateClamp_witness : avgChange smallBase smallBase = 0 :=
  (aggregateClamp smallBase smallBase).mpr (by decide)

/-! ## C10: the publisher guard -/

/-- C10: `post_tweet` raises `ValueError` exactly on an empty or
whitespace-only text or one longer than 280 characters, before any cookie
or browser action; an accepted text is posted unmodified (never
shortened). -/
theorem postTweetValidation (t : String) :
    ((∃ e, postTweet t = Except.error e) ↔ (stripStr t = "" ∨ 280 < t.length)) ∧
    (∀ acts, postTweet t = Except.ok acts →
      acts = [PubAction.readCookies "cookies.json", PubAction.browserPost t]) := by
  unfold postTweet
  split
  · rename_i hcond
    constructor
    · constructor
      · intro _
        rcases hcond with h | h
        · exact Or.inl (by rw [h]; rfl)
        · exact Or.inl h
      · intro _
        exact ⟨"Tweet vacío", rfl⟩
    · intro acts hacts
      exact absurd hacts (by simp)
  · rename_i hcond
    split
    · rename_i hlen
      constructor
      · exact iff_of_true ⟨"Tweet supera 280 caracteres", rfl⟩ (Or.inr hlen)
      · intro acts hacts
        exact absurd hacts (by simp)
    · rename_i hlen
      constructor
      · constructor
        · intro ⟨e, he⟩
          exact absurd he (by simp)
        · intro h
          rcases h with h | h
          · exact absurd (Or.inr h) hcond
          · exact absurd h hlen
      · intro acts hacts
        exact (Except.ok.injEq _ _).mp hacts.symm ▸ rfl

/-- C10 witness: the guard theorem applied to a concrete accepted text,
recovering the action list, and to a rejected whitespace-only text. -/
theorem postTweetValidation_witness :
    [PubAction.readCookies "cookies.json", PubAction.browserPost "hola"] =
      [PubAction.readCookies "cookies.json", PubAction.browserPost "hola"] ∧
    (∃ e, postTweet "  " = Except.error e) :=
  ⟨(postTweetValidation "hola").2 _ (by decide),
   (postTweetValidation "  ").1.mpr (Or.inl (by decide))⟩

/-! ## C5: the loader and empty product ids -/

/-- C5 counterexample: a row whose `product_id` is whitespace only and
whose price is valid survives cleaning, with the empty string as its id
(the code trims ids but never drops a row because of its id). -/
theorem c5_counterexample :
    loadCsvClean [rowP "  " "Producto Y" "2,5"] =
      [{ product_id := "", product_name := "Producto Y", price := 5 / 2 }] := by
  decide

/-- C5 (amended): the loader trims every `product_id` and drops a row
exactly when its price fails numeric coercion or is not positive; rows
whose trimmed id is empty are retained (with the empty string as id), not
dropped. -/
theorem loadCsvCleanCharacterization (rows : List RawRow) :
    (∀ rec ∈ loadCsvClean rows, 0 < rec.price) ∧
    (∀ raw ∈ rows, ∀ p, toNumeric (stripStr (commaToDot raw.price)) = some p →
      0 < p →
      { product_id := stripStr raw.product_id
        product_name := raw.product_name
        price := p : Record } ∈ loadCsvClean rows) := by
  constructor
  · intro rec hrec
    rcases List.mem_filterMap.mp hrec with ⟨raw, _, hval⟩
    revert hval
    split
    · intro h
      exact absurd h (by simp)
    · split
      · rename_i hpos
        intro h
        rcases Option.some.injEq _ _ ▸ h with rfl
        simpa using hpos
      · intro h
        exact absurd h (by simp)
  · intro raw hraw p hnum hpos
    refine List.mem_filterMap.mpr ⟨raw, hraw, ?_⟩
    rw [hnum]
    simp [hpos]

/-- C5 witness: the amended loader theorem applied to the concrete
whitespace-id row. -/
theorem loadCsvCleanCharacterization_witness :
    { product_id := "", product_name := "Producto Y", price := 5 / 2 : Record } ∈
      loadCsvClean [rowP "  " "Producto Y" "2,5"] :=
  (loadCsvCleanCharacterization [rowP "  " "Producto Y" "2,5"]).2
    (rowP "  " "Producto Y" "2,5") (by decide) (5 / 2) (by decide) (by decide)

/-! ## C4: ranking order and the absent tie-break -/

/-- A riser with `product_id = "b"`, appearing first in the join order. -/
def c4rB : MergedRow :=
  { product_id := "b", product_name_today := "Producto B", price_today := 2,
    product_name_base := "Producto B", price_base := 1 }

/-- A riser with `product_id = "a"` and the same `pct_change`, appearing
second in the join order. -/
def c4rA : MergedRow :=
  { product_id := "a", product_name_today := "Producto A", price_today := 2,
    product_name_base := "Producto A", price_base := 1 }

/-- C4 counterexample: two products with identical `pct_change` where the
lexicographically smaller `product_id` ("a") is ranked second, not first,
in both top lists — the code sorts by `pct_change` alone and never breaks
ties by `product_id`. -/
theorem c4_counterexample :
    pctOf c4rA = pctOf c4rB ∧
    c4rA.product_id.data < c4rB.product_id.data ∧
    topUp [c4rB, c4rA] = [c4rB, c4rA] ∧
    topDown [c4rB, c4rA] = [c4rB, c4rA] := by decide

/-- C4 (amended): the gainer list is ordered by descending `pct_change`
and the loser list by ascending `pct_change`, each of length at most
`TOP_N` and drawn from the records with non-zero change; ties are left in
the order the sort produces (source order under a stable sort) — no
`product_id` tie-break exists. -/
theorem rankingOrder (h : List MergedRow) :
    (topUp h).Sorted pctGe ∧ (topDown h).Sorted pctLe ∧
    (topUp h).length ≤ topN ∧ (topDown h).length ≤ topN ∧
    (∀ m ∈ topUp h, m ∈ h ∧ pctOf m ≠ 0) ∧
    (∀ m ∈ topDown h, m ∈ h ∧ pctOf m ≠ 0) := by
  have hmem : ∀ m ∈ dfChanges h, m ∈ h ∧ pctOf m ≠ 0 := by
    intro m hm
    rcases List.mem_filter.mp hm with ⟨h1, h2⟩
    exact ⟨h1, of_decide_eq_true h2⟩
  refine ⟨?_, ?_, ?_, ?_, ?_, ?_⟩
  · exact (List.sorted_insertionSort pctGe (dfChanges h)).sublist
      (List.take_sublist _ _)
  · exact (List.sorted_insertionSort pctLe (dfChanges h)).sublist
      (List.take_sublist _ _)
  · exact List.length_take_le _ _
  · exact List.length_take_le _ _
  · intro m hm
    exact hmem m ((List.perm_insertionSort pctGe (dfChanges h)).mem_iff.mp
      ((List.take_sublist _ _).mem hm))
  · intro m hm
    exact hmem m ((List.perm_insertionSort pctLe (dfChanges h)).mem_iff.mp
      ((List.take_sublist _ _).mem hm))

/-- C4 witness: the ranking theorem applied to the concrete tied pair. -/
theorem rankingOrder_witness : c4rB ∈ [c4rB, c4rA] ∧ pctOf c4rB ≠ 0 :=
  (rankingOrder [c4rB, c4rA]).2.2.2.2.1 c4rB (by decide)

/-! ## C9: inner-join cardinality -/

/-- The key column of an aggregated table is the sorted deduplication of
the input key column. -/
theorem aggregate_keys (rows : List Record) :
    (aggregate rows).map (·.product_id) =
      List.insertionSort keyLe (rows.map (·.product_id)).dedup := by
  unfold aggregate
  rw [List.map_map]
  exact List.map_id' _

/-- Aggregated tables have pairwise-distinct `product_id`s. -/
theorem aggregate_keys_nodup (rows : List Record) :
    ((aggregate rows).map (·.product_id)).Nodup := by
  rw [aggregate_keys]
  exact ((List.perm_insertionSort keyLe _).nodup_iff).mpr (List.nodup_dedup _)

/-- The key column of the merge result is a sublist of the left key
column. -/
theorem mergeInner_keys_sublist (A B : List AggRow) :
    ((mergeInner A B).map (·.product_id)).Sublist (A.map (·.product_id)) := by
  induction A with
  | nil => simp [mergeInner]
  | cons t A ih =>
    simp only [mergeInner, List.filterMap_cons] at ih ⊢
    cases hf : B.find? (fun b => b.product_id = t.product_id) with
    | none =>
      simp only [Option.map_none', List.map_cons]
      exact List.Sublist.cons _ ih
    | some b =>
      simp only [Option.map_some', List.map_cons]
      exact List.Sublist.cons₂ _ ih

/-- Every merged row's key occurs in the right key column. -/
theorem mergeInner_mem_right {A B : List AggRow} {m : MergedRow}
    (hm : m ∈ mergeInner A B) : m.product_id ∈ B.map (·.product_id) := by
  rcases List.mem_filterMap.mp hm with ⟨t, _, hval⟩
  cases hf : (B.find? fun b => b.product_id = t.product_id) with
  | none => rw [hf] at hval; simp at hval
  | some b =>
    rw [hf] at hval
    have hb : b ∈ B := List.mem_of_find?_eq_some hf
    have hpred := List.find?_some hf
    have hbid : b.product_id = t.product_id := by simpa using hpred
    have hmid : m.product_id = t.product_id := by
      rcases Option.some.injEq _ _ ▸ hval with rfl
      rfl
    exact List.mem_map.mpr ⟨b, hb, by rw [hbid, hmid]⟩

/-- Every merged row's key occurs in the left key column. -/
theorem mergeInner_mem_left {A B : List AggRow} {m : MergedRow}
    (hm : m ∈ mergeInner A B) : m.product_id ∈ A.map (·.product_id) :=
  (mergeInner_keys_sublist A B).mem (List.mem_map_of_mem (·.product_id) hm)

/-- A list without duplicates contained in another list is no longer. -/
theorem length_le_of_nodup_subset {α : Type} [DecidableEq α] {l₁ l₂ : List α}
    (h₁ : l₁.Nodup) (h₂ : ∀ x ∈ l₁, x ∈ l₂) : l₁.length ≤ l₂.length :=
  calc l₁.length = l₁.toFinset.card := (List.toFinset_card_of_nodup h₁).symm
    _ ≤ l₂.toFinset.card := Finset.card_le_card fun x hx =>
        List.mem_toFinset.mpr (h₂ x (List.mem_toFinset.mp hx))
    _ ≤ l₂.length := List.toFinset_card_le l₂

/-- C9: for every pair of cleaned snapshot tables, the inner join of
their aggregations has at most `min(a, b)` records, where `a` and `b`
count the distinct products of each side, and every joined `product_id`
occurs in both aggregated tables. -/
theorem joinCardinality (baseRecs todayRecs : List Record) :
    (mergeInner (aggregate todayRecs) (aggregate baseRecs)).length
        ≤ min (aggregate todayRecs).length (aggregate baseRecs).length ∧
    ∀ m ∈ mergeInner (aggregate todayRecs) (aggregate baseRecs),
      m.product_id ∈ (aggregate todayRecs).map (·.product_id) ∧
      m.product_id ∈ (aggregate baseRecs).map (·.product_id) := by
  constructor
  · refine le_min ?_ ?_
    · have h := (mergeInner_keys_sublist (aggregate todayRecs)
        (aggregate baseRecs)).length_le
      simpa using h
    · have hnd : ((mergeInner (aggregate todayRecs) (aggregate baseRecs)).map
          (·.product_id)).Nodup :=
        (aggregate_keys_nodup todayRecs).sublist
          (mergeInner_keys_sublist (aggregate todayRecs) (aggregate baseRecs))
      have hsub : ∀ x ∈ (mergeInner (aggregate todayRecs)
            (aggregate baseRecs)).map (·.product_id),
          x ∈ (aggregate baseRecs).map (·.product_id) := by
        intro x hx
        rcases List.mem_map.mp hx with ⟨m, hm, rfl⟩
        exact mergeInner_mem_right hm
      have h := length_le_of_nodup_subset hnd hsub
      simpa using h
  · intro m hm
    exact ⟨mergeInner_mem_left hm, mergeInner_mem_right hm⟩

/-- C9 witness: the join-cardinality theorem applied to concrete cleaned
tables. -/
theorem joinCardinality_witness :
    { product_id := "x", product_name_today := "Producto X",
      price_today := 11 / 10, product_name_base := "Producto X",
      price_base := 1 : MergedRow }.product_id ∈
        (aggregate (loadCsvClean smallToday)).map (·.product_id) :=
  ((joinCardinality (loadCsvClean smallBase) (loadCsvClean smallToday)).2
    _ (by decide)).1

/-! ## Resolver lemmas -/

/-- The reversed-scan loop finds nothing exactly when no entry is dated at
or before the target. -/
theorem findWeek_eq_none {s : List (Date × Release)} {wd : Date} :
    findWeek s wd = none ↔ ∀ p ∈ s, ¬ p.1 ≤ wd := by
  induction s with
  | nil => simp [findWeek]
  | cons q rest ih =>
    unfold findWeek
    split
    · rename_i hq
      constructor
      · intro h
        cases h
      · intro h
        exact absurd hq (h q (List.mem_cons_self q rest))
    · rename_i hq
      rw [ih]
      constructor
      · intro h p hp
        rcases List.mem_cons.mp hp with rfl | hp'
        · exact hq
        · exact h p hp'
      · intro h p hp
        exact h p (List.mem_cons_of_mem q hp)

/-- On a list sorted by descending date, the reversed-scan loop returns
the entry with the maximum date among those at or before the target. -/
theorem findWeek_some_max {s : List (Date × Release)} {wd : Date} {r : Release}
    (hs : s.Pairwise fun a b => b.1 ≤ a.1) (h : findWeek s wd = some r) :
    ∃ d, (d, r) ∈ s ∧ d ≤ wd ∧ ∀ p ∈ s, p.1 ≤ wd → p.1 ≤ d := by
  induction s with
  | nil => cases h
  | cons q rest ih =>
    rw [List.pairwise_cons] at hs
    unfold findWeek at h
    split at h
    · rename_i hq
      injection h with h
      subst h
      refine ⟨q.1, ?_, hq, ?_⟩
      · exact (@Prod.mk.eta _ _ q) ▸ List.mem_cons_self q rest
      · intro p hp _
        rcases List.mem_cons.mp hp with rfl | hp'
        · exact le_refl _
        · exact hs.1 p hp'
    · rename_i hq
      rcases ih hs.2 h with ⟨d, hd, hdle, hmax⟩
      refine ⟨d, List.mem_cons_of_mem q hd, hdle, ?_⟩
      intro p hp hple
      rcases List.mem_cons.mp hp with rfl | hp'
      · exact absurd hple hq
      · exact hmax p hp' hple

/-- On a list sorted by ascending date, `find?` of the baseline predicate
returns a qualifying entry of minimal date. -/
theorem find?_first_ge {s : List (Date × Release)} {bp : Date × Release}
    (hs : s.Sorted dateLe)
    (h : s.find? (fun q => decide (baselineDate ≤ q.1)) = some bp) :
    bp ∈ s ∧ baselineDate ≤ bp.1 ∧ ∀ p ∈ s, baselineDate ≤ p.1 → bp.1 ≤ p.1 := by
  induction s with
  | nil => cases h
  | cons q rest ih =>
    rw [List.sorted_cons] at hs
    rw [List.find?_cons] at h
    split at h
    · rename_i hq
      injection h with h
      subst h
      refine ⟨List.mem_cons_self _ _, of_decide_eq_true hq, ?_⟩
      intro p hp _
      rcases List.mem_cons.mp hp with rfl | hp'
      · exact le_refl _
      · exact hs.1 p hp'
    · rename_i hq
      rcases ih hs.2 h with ⟨hmem, hge, hmin⟩
      refine ⟨List.mem_cons_of_mem q hmem, hge, ?_⟩
      intro p hp hple
      rcases List.mem_cons.mp hp with rfl | hp'
      · exact absurd (decide_eq_true hple) (by simp [hq])
      · exact hmin p hp' hple

/-- `runMain` on a catalog with no dated entry. -/
theorem runMain_eq_nil {dated : List (Date × Release)} {today : Date}
    (hsl : sortDated dated = []) :
    runMain dated today =
      Except.error "No se pudo extraer fecha de ningún release" := by
  unfold runMain
  rw [hsl]

/-- `runMain` unfolded on a catalog whose sorted form is nonempty. -/
theorem runMain_eq_cons {dated : List (Date × Release)} {today : Date}
    {p : Date × Release} {rest : List (Date × Release)}
    (hsl : sortDated dated = p :: rest) :
    runMain dated today =
      match selectBaselineOf dated with
      | none => Except.error "No se encontró baseline válido"
      | some bp =>
        match extractCsv bp.2 with
        | Except.error e => Except.error e
        | Except.ok baseRows =>
          match extractCsv ((p :: rest).getLast (List.cons_ne_nil p rest)).2 with
          | Except.error e => Except.error e
          | Except.ok todayRows =>
            match weekExtract (findWeekOf dated today) with
            | Except.error e => Except.error e
            | Except.ok weekRows =>
              Except.ok (mainCompose baseRows todayRows weekRows) := by
  unfold runMain
  rw [hsl]

/-- An extraction failure always carries the fixed message. -/
theorem extractCsv_error {r : Release} {e : String}
    (h : extractCsv r = Except.error e) :
    e = "No se encontró CSV válido en el release" := by
  unfold extractCsv at h
  split at h
  · cases h
  · injection h with h
    exact h.symm

/-- A week-extraction failure always carries the fixed message. -/
theorem weekExtract_error {w : Option Release} {e : String}
    (h : weekExtract w = Except.error e) :
    e = "No se encontró CSV válido en el release" := by
  cases w with
  | none => cases h
  | some r =>
    have h' : (match extractCsv r with
        | Except.ok t => Except.ok (some t)
        | Except.error e' => Except.error e') = Except.error e := h
    cases hx : extractCsv r with
    | ok t => rw [hx] at h'; cases h'
    | error e' =>
      rw [hx] at h'
      injection h' with h''
      rw [← h'']
      exact extractCsv_error hx

/-! ## C6: week-ago resolution -/

/-- C6: the week-ago selection returns nothing exactly when no entry is
dated at or before `today − 7`; otherwise it returns an entry of maximal
such date; and when nothing qualifies the run still completes (no fatal
error), the report being composed without week data. -/
theorem weekAgoResolution (l : List (Date × Release)) (today : Date) :
    (findWeekOf l today = none ↔ ∀ p ∈ l, ¬ p.1 ≤ today - daysWeek) ∧
    (∀ r, findWeekOf l today = some r →
      ∃ d, (d, r) ∈ l ∧ d ≤ today - daysWeek ∧
        ∀ p ∈ l, p.1 ≤ today - daysWeek → p.1 ≤ d) ∧
    (findWeekOf l today = none →
      ∀ bp bRows lp tRows,
        selectBaselineOf l = some bp → extractCsv bp.2 = Except.ok bRows →
        (sortDated l).getLast? = some lp → extractCsv lp.2 = Except.ok tRows →
        runMain l today = Except.ok (mainCompose bRows tRows none)) := by
  have hperm := List.perm_insertionSort dateLe l
  have hs := List.sorted_insertionSort dateLe l
  refine ⟨?_, ?_, ?_⟩
  · rw [findWeekOf, findWeek_eq_none]
    constructor
    · intro h p hp
      exact h p (List.mem_reverse.mpr (hperm.mem_iff.mpr hp))
    · intro h p hp
      exact h p (hperm.mem_iff.mp (List.mem_reverse.mp hp))
  · intro r hr
    have hdesc : (sortDated l).reverse.Pairwise fun a b => b.1 ≤ a.1 :=
      List.pairwise_reverse.mpr hs
    rcases findWeek_some_max hdesc hr with ⟨d, hmem, hdle, hmax⟩
    refine ⟨d, hperm.mem_iff.mp (List.mem_reverse.mp hmem), hdle, ?_⟩
    intro p hp hple
    exact hmax p (List.mem_reverse.mpr (hperm.mem_iff.mpr hp)) hple
  · intro hwnone bp bRows lp tRows hb hbe hlp hle
    cases hsl : sortDated l with
    | nil => rw [hsl] at hlp; cases hlp
    | cons p rest =>
      have hlast : (p :: rest).getLast (List.cons_ne_nil p rest) = lp := by
        rw [hsl] at hlp
        rw [List.getLast?_eq_getLast_of_ne_nil (List.cons_ne_nil p rest)] at hlp
        injection hlp
      rw [runMain_eq_cons hsl]
      simp only [hb, hbe, hlast, hle, hwnone, weekExtract]

/-- C6 witness: the resolution theorem applied to the concrete catalog
with no entry at or before `today − 7`; the run completes. -/
theorem weekAgoResolution_witness :
    runMain catNoWeek smallTodayDate =
      Except.ok (mainCompose smallBase smallToday none) :=
  (weekAgoResolution catNoWeek smallTodayDate).2.2 (by decide)
    (daysFromCivil 2026 1 15, relA) smallBase
    (daysFromCivil 2026 1 20, relB) smallToday
    (by decide) (by decide) (by decide) (by decide)

/-! ## C7: baseline resolution -/

/-- Once a baseline is selected, the run can no longer fail with either
of the two snapshot-resolution errors. -/
theorem runMain_ne_date_errors (today : Date)
    {dated : List (Date × Release)} {p : Date × Release}
    {rest : List (Date × Release)} {bp : Date × Release}
    (hsl : sortDated dated = p :: rest)
    (hsb : selectBaselineOf dated = some bp) :
    runMain dated today ≠
        Except.error "No se pudo extraer fecha de ningún release" ∧
    runMain dated today ≠ Except.error "No se encontró baseline válido" := by
  rw [runMain_eq_cons hsl]
  simp only [hsb]
  rcases hbx : extractCsv bp.2 with e | bRows <;> simp only [hbx]
  · have he := extractCsv_error hbx
    subst he
    exact ⟨by decide, by decide⟩
  · rcases htx : extractCsv ((p :: rest).getLast
        (List.cons_ne_nil p rest)).2 with e | tRows <;> simp only [htx]
    · have he := extractCsv_error htx
      subst he
      exact ⟨by decide, by decide⟩
    · rcases hwx : weekExtract (findWeekOf dated today) with e | wRows <;>
        simp only [hwx]
      · have he := weekExtract_error hwx
        subst he
        exact ⟨by decide, by decide⟩
      · exact ⟨fun h => Except.noConfusion h, fun h => Except.noConfusion h⟩

/-- C7: the baseline selection returns the earliest entry dated at or
after the configured baseline date (an exact match wins over any later
entry), and the run aborts with a snapshot-not-found error exactly when
no such entry exists. -/
theorem baselineResolution (l : List (Date × Release)) (today : Date) :
    (∀ bp, selectBaselineOf l = some bp →
      bp ∈ l ∧ baselineDate ≤ bp.1 ∧ ∀ p ∈ l, baselineDate ≤ p.1 → bp.1 ≤ p.1) ∧
    ((runMain l today = Except.error "No se pudo extraer fecha de ningún release" ∨
      runMain l today = Except.error "No se encontró baseline válido") ↔
      ∀ p ∈ l, p.1 < baselineDate) := by
  have hperm : (sortDated l).Perm l := List.perm_insertionSort dateLe l
  have hs : (sortDated l).Sorted dateLe := List.sorted_insertionSort dateLe l
  constructor
  · intro bp hbp
    rcases find?_first_ge hs hbp with ⟨hmem, hge, hmin⟩
    exact ⟨hperm.mem_iff.mp hmem, hge,
      fun p hp hple => hmin p (hperm.mem_iff.mpr hp) hple⟩
  · constructor
    · intro h
      cases hsl : sortDated l with
      | nil =>
        have hl : l = [] := ((hsl ▸ hperm).nil_eq).symm
        simp [hl]
      | cons p rest =>
        rcases hsb : selectBaselineOf l with _ | bp
        · unfold selectBaselineOf at hsb
          intro q hq
          have hq' := List.find?_eq_none.mp hsb q (hperm.mem_iff.mpr hq)
          have : ¬ baselineDate ≤ q.1 := fun hc => hq' (decide_eq_true hc)
          exact lt_of_not_le this
        · exfalso
          rcases runMain_ne_date_errors today hsl hsb with ⟨h1, h2⟩
          rcases h with h | h
          · exact absurd h h1
          · exact absurd h h2
    · intro h
      cases hsl : sortDated l with
      | nil => exact Or.inl (runMain_eq_nil hsl)
      | cons p rest =>
        have hsb : selectBaselineOf l = none := by
          unfold selectBaselineOf
          rw [List.find?_eq_none]
          intro q hq
          simp [not_le.mpr (h q (hperm.mem_iff.mp hq))]
        refine Or.inr ?_
        rw [runMain_eq_cons hsl]
        simp only [hsb]

/-- C7 witness: the boundary scenario of the spec — snapshots dated
2025-12-30, 2026-01-04 and 2026-01-10 with baseline date 2026-01-04: the
resolver picks the exact match, which qualifies and is minimal among
qualifying entries. -/
theorem baselineResolution_witness :
    selectBaselineOf
        [(daysFromCivil 2025 12 30, relW), (daysFromCivil 2026 1 4, relA),
         (daysFromCivil 2026 1 10, relB)] =
      some (daysFromCivil 2026 1 4, relA) ∧
    (daysFromCivil 2026 1 4, relA) ∈
        [(daysFromCivil 2025 12 30, relW), (daysFromCivil 2026 1 4, relA),
         (daysFromCivil 2026 1 10, relB)] ∧
    baselineDate ≤ daysFromCivil 2026 1 4 :=
  ⟨by decide,
   ((baselineResolution
      [(daysFromCivil 2025 12 30, relW), (daysFromCivil 2026 1 4, relA),
       (daysFromCivil 2026 1 10, relB)] 0).1
      (daysFromCivil 2026 1 4, relA) (by decide)).1,
   ((baselineResolution
      [(daysFromCivil 2025 12 30, relW), (daysFromCivil 2026 1 4, relA),
       (daysFromCivil 2026 1 10, relB)] 0).1
      (daysFromCivil 2026 1 4, relA) (by decide)).2.1⟩

/-! ## C8: extraction failure on the week-ago snapshot -/

/-- Release dated 2026-01-10 whose zip holds no matching CSV. -/
def relWbad : Release := { tag_name := "2026-01-10", csvTable := none }

/-- Catalog whose week-ago snapshot resolves but fails extraction, while
baseline and latest both extract fine. -/
def c8Cat : List (Date × Release) :=
  [(daysFromCivil 2026 1 5, relBase), (daysFromCivil 2026 1 10, relWbad),
   (daysFromCivil 2026 1 20, relToday)]

/-- C8 counterexample: the week-ago snapshot resolves to a release whose
extraction fails, and the whole run aborts with that extraction error —
`week_csv = extract_csv_from_release(week, tmpdir) if week else None`
guards only resolution, not extraction, so nothing degrades to a
placeholder. -/
theorem c8_counterexample :
    findWeekOf c8Cat c1TodayDate = some relWbad ∧
    extractCsv relWbad =
      Except.error "No se encontró CSV válido en el release" ∧
    runMain c8Cat c1TodayDate =
      Except.error "No se encontró CSV válido en el release" := by decide

/-- C8 (amended): an extraction failure is fatal for every snapshot,
week-ago included: whenever the week-ago snapshot resolves but its
extraction fails, the run aborts with that error even though baseline and
latest extract correctly; only failing to resolve a week-ago date at all
is non-fatal. -/
theorem weekExtractionFatal (l : List (Date × Release)) (today : Date) :
    ∀ w e bp bRows lp tRows,
      findWeekOf l today = some w → extractCsv w = Except.error e →
      selectBaselineOf l = some bp → extractCsv bp.2 = Except.ok bRows →
      (sortDated l).getLast? = some lp → extractCsv lp.2 = Except.ok tRows →
      runMain l today = Except.error e := by
  intro w e bp bRows lp tRows hw hwe hb hbe hlp hle
  cases hsl : sortDated l with
  | nil => rw [hsl] at hlp; cases hlp
  | cons p rest =>
    have hlast : (p :: rest).getLast (List.cons_ne_nil p rest) = lp := by
      rw [hsl] at hlp
      rw [List.getLast?_eq_getLast_of_ne_nil (List.cons_ne_nil p rest)] at hlp
      injection hlp
    rw [runMain_eq_cons hsl]
    simp only [hb, hbe, hlast, hle, hw, weekExtract, hwe]

/-- C8 witness: the fatality theorem applied to the concrete catalog. -/
theorem weekExtractionFatal_witness :
    runMain c8Cat c1TodayDate =
      Except.error "No se encontró CSV válido en el release" ∧
    findWeekOf c8Cat c1TodayDate = some relWbad :=
  ⟨weekExtractionFatal c8Cat c1TodayDate relWbad
      "No se encontró CSV válido en el release"
      (daysFromCivil 2026 1 5, relBase) c1Base
      (daysFromCivil 2026 1 20, relToday) c1Today
      (by decide) (by decide) (by decide) (by decide) (by decide) (by decide),
   by decide⟩

/-! ## C1: no truncation, header and footer shape -/

/-- `"\n".join` on a list with at least two elements. -/
theorem joinLines_cons (a : String) (l : List String) (h : l ≠ []) :
    joinLines (a :: l) = a ++ "\n" ++ joinLines l := by
  cases l with
  | nil => exact absurd rfl h
  | cons b rest => rfl

/-- `"\n".join` splits off its final line. -/
theorem joinLines_concat (l : List String) (x : String) (h : l ≠ []) :
    joinLines (l ++ [x]) = joinLines l ++ "\n" ++ x := by
  induction l with
  | nil => exact absurd rfl h
  | cons a rest ih =>
    cases rest with
    | nil => rfl
    | cons b rest' =>
      rw [List.cons_append, joinLines_cons a ((b :: rest') ++ [x]) (by simp),
        joinLines_cons a (b :: rest') (by simp), ih (by simp)]
      apply String.ext
      simp [List.append_assoc]

/-- The composed line list always starts with the header line and ends
with the hashtag line, whatever the data. -/
theorem buildLines_shape (avg : ℚ) (up down : List MergedRow) :
    ∃ mid, mid ≠ [] ∧
      buildLines avg up down =
        "📊 Precios Mercadona · Madrid" ::
          (mid ++ ["#Mercadona #Precios #Inflación"]) := by
  refine ⟨["", "Desde " ++ baselineLabel ++ ":",
    "📈 Precio medio " ++ fmtSigned 4 avg ++ "%", "",
    "⬆️ Top subidas desde enero de 2026:"]
    ++ (if up.isEmpty then ["Sin cambios relevantes"] else up.map fmtRowLine)
    ++ ["", "⬇️ Top bajadas desde enero de 2026:"]
    ++ (if down.isEmpty then ["Sin cambios relevantes"] else down.map fmtRowLine)
    ++ [""], by simp, ?_⟩
  simp [buildLines]

/-- A successful run always returns a composed report. -/
theorem runMain_ok_shape {dated : List (Date × Release)} {today : Date}
    {s : String} (h : runMain dated today = Except.ok s) :
    ∃ b t w, s = mainCompose b t w := by
  cases hsl : sortDated dated with
  | nil =>
    rw [runMain_eq_nil hsl] at h
    cases h
  | cons p rest =>
    rw [runMain_eq_cons hsl] at h
    rcases hsb : selectBaselineOf dated with _ | bp <;> simp only [hsb] at h
    · cases h
    · rcases hbx : extractCsv bp.2 with e | bRows <;> simp only [hbx] at h
      · cases h
      · rcases htx : extractCsv ((p :: rest).getLast
            (List.cons_ne_nil p rest)).2 with e | tRows <;> simp only [htx] at h
        · cases h
        · rcases hwx : weekExtract (findWeekOf dated today)
              with e | wRows <;> simp only [hwx] at h
          · cases h
          · injection h with h
            exact ⟨_, _, _, h.symm⟩

/-- C1 (amended): the pipeline performs no truncation: every successful
run emits the composed text at its full length, always beginning with the
header line and ending with the hashtag footer verbatim; a text over the
280-character budget is rejected by the publisher with `ValueError`
rather than shortened (every text the publisher accepts is within the
budget). -/
theorem reportShape (dated : List (Date × Release)) (today : Date) (s : String) :
    runMain dated today = Except.ok s →
      (∃ r, s = "📊 Precios Mercadona · Madrid" ++ "\n" ++ r) ∧
      (∃ q, s = q ++ "#Mercadona #Precios #Inflación") ∧
      (∀ t acts, postTweet t = Except.ok acts → t.length ≤ 280) := by
  intro h
  rcases runMain_ok_shape h with ⟨b, t, w, rfl⟩
  rcases buildLines_shape (avgChange b t) (topUp (dfHist b t))
    (topDown (dfHist b t)) with ⟨mid, hmid, hbl⟩
  refine ⟨?_, ?_, ?_⟩
  · refine ⟨joinLines (mid ++ ["#Mercadona #Precios #Inflación"]), ?_⟩
    unfold mainCompose
    rw [hbl, joinLines_cons _ _ (by simp)]
  · refine ⟨joinLines ("📊 Precios Mercadona · Madrid" :: mid) ++ "\n", ?_⟩
    unfold mainCompose
    rw [hbl, ← List.cons_append,
      joinLines_concat _ _ (List.cons_ne_nil _ _)]
  · intro t' acts hok
    unfold postTweet at hok
    split at hok
    · cases hok
    · split at hok
      · cases hok
      · rename_i hlen
        exact le_of_not_lt hlen

/-- C1 counterexample: a run over a six-product catalog emits a 481
character report — longer than the 280-character publisher budget (itself
at least 40) — because no truncation exists anywhere in the pipeline. -/
theorem c1_counterexample :
    (runMain c1Cat c1TodayDate).toOption.map String.length = some 481 ∧
    280 < 481 ∧ 40 ≤ 280 := by decide

/-- C1 witness: the shape theorem applied to the concrete six-product
run and to a concrete accepted publisher text. -/
theorem reportShape_witness :
    (runMain c1Cat c1TodayDate).isOk = true ∧ "hola".length ≤ 280 :=
  ⟨by decide,
   (reportShape c1Cat c1TodayDate (mainCompose c1Base c1Today (some c1Base))
      (by decide)).2.2 "hola"
      [PubAction.readCookies "cookies.json", PubAction.browserPost "hola"]
      (by decide)⟩

/-! ## C2: the absent weekly-summary block -/

/-- C2 counterexample: two catalogs identical in baseline and latest
data, one with a resolvable week-ago snapshot and one without, produce
the exact same report text — so the report neither counts weekly
rises/falls nor renders any "insufficient history" placeholder. -/
theorem c2_counterexample :
    runMain catWithWeek smallTodayDate = runMain catNoWeek smallTodayDate ∧
    (runMain catNoWeek smallTodayDate).isOk = true ∧
    findWeekOf catWithWeek smallTodayDate = some relW ∧
    findWeekOf catNoWeek smallTodayDate = none := by decide

/-- C2 (amended): the composed report contains no weekly-summary block at
all: the text is a function of the baseline and latest tables only, and
the extracted week-ago data (`week_csv`), whether present or absent, does
not influence it. -/
theorem mainComposeWeekIndependent (b t : List RawRow)
    (w w' : Option (List RawRow)) :
    mainCompose b t w = mainCompose b t w' := rfl
